import Mathlib

/-!
Shallow embedding of `chain-impl-mockchain/src/config.rs`: the self-describing
configuration-parameter codec (tag registry, 16-bit tag/length frame, the eight
per-kind payload codecs, the parameter-union binary codec, and the optional
text-format adapter), together with proofs of the specification's claims.

Machine integers are embedded as `Nat` with explicit `% 2 ^ w` where the Rust
code can wrap; byte buffers are `List Nat` whose elements are byte values.
Fallible operations return `Except`/`Option` mirroring `Result`/`Option`.
-/

namespace CardanoCfg

instance {ε α : Type} [DecidableEq ε] [DecidableEq α] : DecidableEq (Except ε α) := by
  intro a b
  cases a <;> cases b <;>
    first
      | exact isFalse (fun h => Except.noConfusion h)
      | · rename_i x y
          exact decidable_of_iff (x = y) (by simp)

/-- The `Error` enum of `config.rs` (lines 17-23): the four structured error
conditions of the configuration codec. -/
inductive Error where
  | InvalidTag
  | SizeInvalid
  | StructureInvalid
  | UnknownString (s : String)
deriving DecidableEq, Repr

/-- The `Display` rendering of `Error` (config.rs lines 25-34). -/
def Error.display : Error → String
  | .InvalidTag => "Invalid config parameter tag"
  | .SizeInvalid => "Invalid config parameter size"
  | .StructureInvalid => "Invalid config parameter structure"
  | .UnknownString s => "Invalid config parameter string '" ++ s ++ "'"

/-- Modelled from the spec: the shared binary-read layer's error type
(`chain_core::mempack::ReadError`, not under src/). The spec names a generic
buffer-underrun condition for short buffers; config-codec errors are wrapped
into a structure-invalid condition carrying their display string
(config.rs lines 38-42, `Into<ReadError> for Error`). -/
inductive ReadError where
  | NotEnoughBytes
  | StructureInvalid (s : String)
deriving DecidableEq, Repr

/-- The `Into<ReadError>` conversion of config.rs lines 38-42. -/
def Error.intoReadError (e : Error) : ReadError :=
  ReadError.StructureInvalid e.display

/-- Modelled from the spec: the address-discrimination mode
(`chain_addr::Discrimination`, not under src/), an enum with the two variants
production and test. -/
inductive Discrimination where
  | Production
  | Test
deriving DecidableEq, Repr

/-- Modelled from the spec: the consensus-algorithm selector enum
(`crate::block::ConsensusVersion`, not under src/), covering the two algorithms
the spec names (BFT and Genesis Praos), with stable small integer ordinals used
on the wire. -/
inductive ConsensusVersion where
  | Bft
  | GenesisPraos
deriving DecidableEq, Repr

/-- Modelled from the spec: the wire ordinal of a consensus algorithm
(`ConsensusVersion as u16`). -/
def ConsensusVersion.toU16 : ConsensusVersion → Nat
  | .Bft => 1
  | .GenesisPraos => 2

/-- Modelled from the spec: `ConsensusVersion::from_u16`, the partial inverse
of the ordinal mapping. -/
def ConsensusVersion.fromU16 (n : Nat) : Option ConsensusVersion :=
  if n = 1 then some .Bft
  else if n = 2 then some .GenesisPraos
  else none

/-- Modelled from the spec: the fixed-point type (`crate::milli::Milli`, not
under src/), a decimal-fraction value represented internally as an integer
count of thousandths (millis) stored in a u64. -/
structure Milli where
  millis : Nat
deriving DecidableEq, Repr

/-- Modelled from the spec: `Milli::from_millis`. -/
def Milli.from_millis (n : Nat) : Milli := ⟨n⟩

/-- Modelled from the spec: `Milli::into_millis`. -/
def Milli.into_millis (m : Milli) : Nat := m.millis

/-- Modelled from the spec: a leader identity wrapping a public key
(`crate::leadership::bft::LeaderId`, not under src/), carried on the wire as
the raw public-key bytes. -/
structure LeaderId where
  bytes : List Nat
deriving DecidableEq, Repr

/-- Modelled from the spec: the size in bytes of a public key as accepted by
the cryptography module's `PublicKey::from_binary` (an Ed25519 public key). -/
def PUBLIC_KEY_SIZE : Nat := 32

/-- The `Block0Date` newtype of config.rs lines 213-215: seconds elapsed since
1-Jan-1970 (a u64). -/
structure Block0Date where
  date : Nat
deriving DecidableEq, Repr

/-- The `ConfigParam` union of config.rs lines 44-54: the closed set of eight
parameter kinds. -/
inductive ConfigParam where
  | Block0Date (d : Block0Date)
  | Discrimination (d : Discrimination)
  | ConsensusVersion (v : ConsensusVersion)
  | SlotsPerEpoch (n : Nat)
  | SlotDuration (n : Nat)
  | ConsensusLeaderCert (l : LeaderId)
  | ConsensusGenesisPraosParamD (m : Milli)
  | ConsensusGenesisPraosParamF (m : Milli)
deriving DecidableEq, Repr

/-- The `Tag` registry enum of config.rs lines 57-75. -/
inductive Tag where
  | Block0Date
  | Discrimination
  | ConsensusVersion
  | SlotsPerEpoch
  | SlotDuration
  | ConsensusLeaderCert
  | ConsensusGenesisPraosParamD
  | ConsensusGenesisPraosParamF
deriving DecidableEq, Repr

/-- The numeric discriminants assigned in config.rs lines 57-75
(`Block0Date = 1` through `ConsensusGenesisPraosParamF = 8`). -/
def Tag.toNat : Tag → Nat
  | .Block0Date => 1
  | .Discrimination => 2
  | .ConsensusVersion => 3
  | .SlotsPerEpoch => 4
  | .SlotDuration => 5
  | .ConsensusLeaderCert => 6
  | .ConsensusGenesisPraosParamD => 7
  | .ConsensusGenesisPraosParamF => 8

/-- The derived `FromPrimitive::from_u16` for `Tag` (used at config.rs line
405): resolves a numeric value to the tag with that discriminant, `none` when
no discriminant matches. -/
def Tag.fromNat (n : Nat) : Option Tag :=
  if n = 1 then some .Block0Date
  else if n = 2 then some .Discrimination
  else if n = 3 then some .ConsensusVersion
  else if n = 4 then some .SlotsPerEpoch
  else if n = 5 then some .SlotDuration
  else if n = 6 then some .ConsensusLeaderCert
  else if n = 7 then some .ConsensusGenesisPraosParamD
  else if n = 8 then some .ConsensusGenesisPraosParamF
  else none

/-- The canonical name strings declared by the `strum(to_string = ...)`
attributes of config.rs lines 57-75. -/
def Tag.name : Tag → String
  | .Block0Date => "block0-date"
  | .Discrimination => "discrimination"
  | .ConsensusVersion => "block0-consensus"
  | .SlotsPerEpoch => "slots-per-epoch"
  | .SlotDuration => "slot-duration"
  | .ConsensusLeaderCert => "block0-consensus-leader"
  | .ConsensusGenesisPraosParamD => "genesis-praos-param-d"
  | .ConsensusGenesisPraosParamF => "genesis-praos-param-f"

/-- The derived `EnumString` `from_str` for `Tag` (used at config.rs line 157):
case-sensitive exact match against the canonical names. -/
def Tag.fromName (s : String) : Option Tag :=
  if s = "block0-date" then some .Block0Date
  else if s = "discrimination" then some .Discrimination
  else if s = "block0-consensus" then some .ConsensusVersion
  else if s = "slots-per-epoch" then some .SlotsPerEpoch
  else if s = "slot-duration" then some .SlotDuration
  else if s = "block0-consensus-leader" then some .ConsensusLeaderCert
  else if s = "genesis-praos-param-d" then some .ConsensusGenesisPraosParamD
  else if s = "genesis-praos-param-f" then some .ConsensusGenesisPraosParamF
  else none

/-- The `From<&ConfigParam> for Tag` impl of config.rs lines 77-90: derives the
tag from a parameter's active variant. -/
def Tag.fromConfigParam : ConfigParam → Tag
  | .Block0Date _ => .Block0Date
  | .Discrimination _ => .Discrimination
  | .ConsensusVersion _ => .ConsensusVersion
  | .SlotsPerEpoch _ => .SlotsPerEpoch
  | .SlotDuration _ => .SlotDuration
  | .ConsensusLeaderCert _ => .ConsensusLeaderCert
  | .ConsensusGenesisPraosParamD _ => .ConsensusGenesisPraosParamD
  | .ConsensusGenesisPraosParamF _ => .ConsensusGenesisPraosParamF

/-- The `TagLen` frame word of config.rs lines 386-387: a u16 packing a tag
(upper 10 bits) and a payload length (lower 6 bits). -/
structure TagLen where
  word : Nat
deriving DecidableEq, Repr

/-- `MAXIMUM_LEN` of config.rs line 389. -/
def MAXIMUM_LEN : Nat := 64

/-- `TagLen::new` (config.rs lines 392-398): `(tag as u16) << 6 | len as u16`
guarded by `len < MAXIMUM_LEN`; the u16 casts and shift wrap modulo 2^16. -/
def TagLen.new (tag : Tag) (len : Nat) : Option TagLen :=
  if len < MAXIMUM_LEN then
    some ⟨(((tag.toNat % 65536) <<< 6) % 65536) ||| (len % 65536)⟩
  else
    none

/-- `TagLen::get_len` (config.rs lines 400-402): the low 6 bits of the word. -/
def TagLen.get_len (t : TagLen) : Nat := t.word &&& 63

/-- `TagLen::get_tag` (config.rs lines 404-406): resolve the upper 10 bits via
`FromPrimitive::from_u16`, failing with `InvalidTag` when unregistered. -/
def TagLen.get_tag (t : TagLen) : Except Error Tag :=
  match Tag.fromNat (t.word >>> 6) with
  | some tag => .ok tag
  | none => .error .InvalidTag

/-- Big-endian byte decomposition of a u64, as produced by
`u64::to_be_bytes` (config.rs line 343). -/
def toBeBytes8 (x : Nat) : List Nat :=
  [x >>> 56 % 256, x >>> 48 % 256, x >>> 40 % 256, x >>> 32 % 256,
   x >>> 24 % 256, x >>> 16 % 256, x >>> 8 % 256, x % 256]

/-- Big-endian byte decomposition of a u16, as produced by
`u16::to_be_bytes` (config.rs line 276) and by the codec's `put_u16`
(config.rs line 144). -/
def toBeBytes2 (x : Nat) : List Nat :=
  [x >>> 8 % 256, x % 256]

/-- Big-endian recomposition of a byte list (`from_be_bytes`). -/
def fromBeBytes (l : List Nat) : Nat :=
  l.foldl (fun a b => a * 256 + b) 0

/-- The `ConfigParamVariant` impl for `u64` (config.rs lines 341-353), binary
side: payload is the 8 big-endian bytes; decoding any other length fails with
`SizeInvalid`. -/
def U64.to_payload (x : Nat) : List Nat := toBeBytes8 x

/-- `<u64 as ConfigParamVariant>::from_payload` (config.rs lines 346-353). -/
def U64.from_payload (p : List Nat) : Except Error Nat :=
  if p.length = 8 then .ok (fromBeBytes p) else .error .SizeInvalid

/-- The `ConfigParamVariant` impl for `u8` (config.rs lines 320-330), binary
side: a single byte; decoding any other length fails with `SizeInvalid`. -/
def U8.to_payload (x : Nat) : List Nat := [x]

/-- `<u8 as ConfigParamVariant>::from_payload` (config.rs lines 325-330). -/
def U8.from_payload (p : List Nat) : Except Error Nat :=
  match p with
  | [b] => .ok b
  | _ => .error .SizeInvalid

/-- `VAL_PROD` of config.rs line 235. -/
def VAL_PROD : Nat := 1

/-- `VAL_TEST` of config.rs line 236. -/
def VAL_TEST : Nat := 2

/-- `<Discrimination as ConfigParamVariant>::to_payload`
(config.rs lines 239-244). -/
def Discrimination.to_payload : Discrimination → List Nat
  | .Production => [VAL_PROD]
  | .Test => [VAL_TEST]

/-- `<Discrimination as ConfigParamVariant>::from_payload`
(config.rs lines 246-255): a length check, then a match on the single byte. -/
def Discrimination.from_payload (p : List Nat) : Except Error Discrimination :=
  match p with
  | [b] =>
    if b = VAL_PROD then .ok .Production
    else if b = VAL_TEST then .ok .Test
    else .error .StructureInvalid
  | _ => .error .SizeInvalid

/-- `<ConsensusVersion as ConfigParamVariant>::to_payload`
(config.rs lines 275-277): the 2 big-endian bytes of the ordinal. -/
def ConsensusVersion.to_payload (v : ConsensusVersion) : List Nat :=
  toBeBytes2 v.toU16

/-- `<ConsensusVersion as ConfigParamVariant>::from_payload`
(config.rs lines 279-287): exact 2-byte length check, big-endian read, then
ordinal resolution failing with `StructureInvalid`. -/
def ConsensusVersion.from_payload (p : List Nat) : Except Error ConsensusVersion :=
  if p.length = 2 then
    match ConsensusVersion.fromU16 (fromBeBytes p) with
    | some v => .ok v
    | none => .error .StructureInvalid
  else .error .SizeInvalid

/-- `<LeaderId as ConfigParamVariant>::to_payload` (config.rs lines 299-301):
the raw public-key bytes. -/
def LeaderId.to_payload (l : LeaderId) : List Nat := l.bytes

/-- `<LeaderId as ConfigParamVariant>::from_payload` (config.rs lines 303-307).
The key parse is modelled from the spec: `PublicKey::from_binary` (cryptography
module, not under src/) accepts exactly `PUBLIC_KEY_SIZE` bytes; a parse
failure is mapped to `SizeInvalid` by the config codec. -/
def LeaderId.from_payload (p : List Nat) : Except Error LeaderId :=
  if p.length = PUBLIC_KEY_SIZE then .ok ⟨p⟩ else .error .SizeInvalid

/-- `<Block0Date as ConfigParamVariant>::to_payload` (config.rs lines 218-220). -/
def Block0Date.to_payload (d : Block0Date) : List Nat := U64.to_payload d.date

/-- `<Block0Date as ConfigParamVariant>::from_payload` (config.rs lines 222-224). -/
def Block0Date.from_payload (p : List Nat) : Except Error Block0Date :=
  (U64.from_payload p).map Block0Date.mk

/-- `<Milli as ConfigParamVariant>::to_payload` (config.rs lines 365-367):
the millis representation encoded as a u64. -/
def Milli.to_payload (m : Milli) : List Nat := U64.to_payload m.into_millis

/-- `<Milli as ConfigParamVariant>::from_payload` (config.rs lines 369-371). -/
def Milli.from_payload (p : List Nat) : Except Error Milli :=
  (U64.from_payload p).map Milli.from_millis

/-- `ReadBuf::get_u16` (chain_core, used at config.rs line 94), modelled from
the spec: reads 2 big-endian bytes from the front of the buffer, failing with
the buffer-underrun condition when fewer remain. -/
def get_u16 (buf : List Nat) : Except ReadError (Nat × List Nat) :=
  match buf with
  | b0 :: b1 :: rest => .ok (b0 * 256 + b1, rest)
  | _ => .error .NotEnoughBytes

/-- `ReadBuf::get_slice` (chain_core, used at config.rs line 95), modelled from
the spec: reads exactly `n` bytes from the front of the buffer, failing with
the buffer-underrun condition when fewer remain. -/
def get_slice (n : Nat) (buf : List Nat) : Except ReadError (List Nat × List Nat) :=
  if n ≤ buf.length then .ok (buf.take n, buf.drop n) else .error .NotEnoughBytes

/-- The per-tag dispatch inside `<ConfigParam as Readable>::read`
(config.rs lines 96-117): hand the payload bytes to the matching variant's
`from_payload` and wrap the result into the union. -/
def ConfigParam.readInner (tag : Tag) (bytes : List Nat) : Except Error ConfigParam :=
  match tag with
  | .Block0Date => (Block0Date.from_payload bytes).map ConfigParam.Block0Date
  | .Discrimination => (Discrimination.from_payload bytes).map ConfigParam.Discrimination
  | .ConsensusVersion => (ConsensusVersion.from_payload bytes).map ConfigParam.ConsensusVersion
  | .SlotsPerEpoch => (U64.from_payload bytes).map ConfigParam.SlotsPerEpoch
  | .SlotDuration => (U8.from_payload bytes).map ConfigParam.SlotDuration
  | .ConsensusLeaderCert => (LeaderId.from_payload bytes).map ConfigParam.ConsensusLeaderCert
  | .ConsensusGenesisPraosParamD =>
      (Milli.from_payload bytes).map ConfigParam.ConsensusGenesisPraosParamD
  | .ConsensusGenesisPraosParamF =>
      (Milli.from_payload bytes).map ConfigParam.ConsensusGenesisPraosParamF

/-- `<ConfigParam as Readable>::read` (config.rs lines 92-120): read the 16-bit
frame word, read exactly `get_len` payload bytes, resolve the tag, dispatch;
config-codec failures are wrapped via `Into<ReadError>`. Returns the decoded
parameter and the remaining buffer. -/
def ConfigParam.read (buf : List Nat) : Except ReadError (ConfigParam × List Nat) :=
  match get_u16 buf with
  | .error e => .error e
  | .ok (w, buf1) =>
    match get_slice (TagLen.get_len ⟨w⟩) buf1 with
    | .error e => .error e
    | .ok (bytes, buf2) =>
      match TagLen.get_tag ⟨w⟩ with
      | .error e => .error e.intoReadError
      | .ok tag =>
        match ConfigParam.readInner tag bytes with
        | .ok v => .ok (v, buf2)
        | .error e => .error e.intoReadError

/-- The per-variant payload production inside
`<ConfigParam as property::Serialize>::serialize` (config.rs lines 127-136). -/
def ConfigParam.to_payload : ConfigParam → List Nat
  | .Block0Date d => d.to_payload
  | .Discrimination d => d.to_payload
  | .ConsensusVersion v => v.to_payload
  | .SlotsPerEpoch n => U64.to_payload n
  | .SlotDuration n => U8.to_payload n
  | .ConsensusLeaderCert l => l.to_payload
  | .ConsensusGenesisPraosParamD m => m.to_payload
  | .ConsensusGenesisPraosParamF m => m.to_payload

/-- `<ConfigParam as property::Serialize>::serialize` (config.rs lines
122-147): derive the tag from the active variant, produce the payload, build
the frame (failing when the payload is 64 bytes or more), then emit the
big-endian frame word followed by the payload with no padding. The io error is
modelled by its message string. -/
def ConfigParam.serialize (v : ConfigParam) : Except String (List Nat) :=
  let tag := Tag.fromConfigParam v
  let bytes := v.to_payload
  match TagLen.new tag bytes.length with
  | none => .error "initial ent payload too big"
  | some taglen => .ok (toBeBytes2 taglen.word ++ bytes)

/-- Well-formedness of a `ConfigParam` value as constructible in the Rust
type: numeric fields fit their machine-integer width, and a leader certificate
holds exactly the bytes of a public key. -/
def ConfigParam.WF : ConfigParam → Prop
  | .Block0Date d => d.date < 2 ^ 64
  | .Discrimination _ => True
  | .ConsensusVersion _ => True
  | .SlotsPerEpoch n => n < 2 ^ 64
  | .SlotDuration n => n < 2 ^ 8
  | .ConsensusLeaderCert l => l.bytes.length = PUBLIC_KEY_SIZE ∧ ∀ b ∈ l.bytes, b < 256
  | .ConsensusGenesisPraosParamD m => m.millis < 2 ^ 64
  | .ConsensusGenesisPraosParamF m => m.millis < 2 ^ 64

instance (v : ConfigParam) : Decidable v.WF :=
  match v with
  | .Block0Date d => inferInstanceAs (Decidable (d.date < 2 ^ 64))
  | .Discrimination _ => inferInstanceAs (Decidable True)
  | .ConsensusVersion _ => inferInstanceAs (Decidable True)
  | .SlotsPerEpoch n => inferInstanceAs (Decidable (n < 2 ^ 64))
  | .SlotDuration n => inferInstanceAs (Decidable (n < 2 ^ 8))
  | .ConsensusLeaderCert l =>
      inferInstanceAs (Decidable (l.bytes.length = PUBLIC_KEY_SIZE ∧ ∀ b ∈ l.bytes, b < 256))
  | .ConsensusGenesisPraosParamD m => inferInstanceAs (Decidable (m.millis < 2 ^ 64))
  | .ConsensusGenesisPraosParamF m => inferInstanceAs (Decidable (m.millis < 2 ^ 64))

/-! ## Text-format adapter (the `serde_impl` module and per-kind text codecs) -/

/-- Modelled from the spec: the digits of a decimal rendering (std `Display`
for unsigned integers, external to this core), little-endian, produced with a
structural fuel equal to the number itself (always sufficient since a number
has no more decimal digits than its own value). -/
def decDigitsFuel : Nat → Nat → List Nat
  | 0, _ => []
  | fuel + 1, n => if n = 0 then [] else n % 10 :: decDigitsFuel fuel (n / 10)

/-- The character for a single decimal digit. -/
def digitChar (d : Nat) : Char := Char.ofNat (48 + d)

/-- Modelled from the spec: the decimal string rendering of an unsigned
integer (std `to_string`, external to this core). -/
def natToString (n : Nat) : String :=
  if n = 0 then "0" else ⟨(decDigitsFuel n n).reverse.map digitChar⟩

/-- The numeric value of a decimal digit character, `none` for anything else. -/
def charDigit (c : Char) : Option Nat :=
  if 48 ≤ c.toNat ∧ c.toNat ≤ 57 then some (c.toNat - 48) else none

/-- One step of decimal parsing: accumulate a digit, failing on a non-digit. -/
def parseStep (acc : Option Nat) (c : Char) : Option Nat :=
  acc.bind (fun a => (charDigit c).map (fun d => a * 10 + d))

/-- Modelled from the spec: decimal parsing of a character list (std
`FromStr` for unsigned integers, external to this core): at least one
character, all decimal digits. -/
def parseDec (cs : List Char) : Option Nat :=
  if cs.isEmpty then none else cs.foldl parseStep (some 0)

/-- `<u64 as ConfigParamVariant>::to_cfg_string` (config.rs lines 355-357). -/
def U64.to_cfg_string (x : Nat) : String := natToString x

/-- `<u64 as ConfigParamVariant>::from_cfg_str` (config.rs lines 359-361 via
the generic `from_cfg_str` helper, line 382-384): a parse failure, including a
value out of u64 range, is reported as `UnknownString` carrying the input. -/
def U64.from_cfg_str (s : String) : Except Error Nat :=
  match parseDec s.data with
  | some n => if n < 2 ^ 64 then .ok n else .error (.UnknownString s)
  | none => .error (.UnknownString s)

/-- `<u8 as ConfigParamVariant>::to_cfg_string` (config.rs lines 332-334). -/
def U8.to_cfg_string (x : Nat) : String := natToString x

/-- `<u8 as ConfigParamVariant>::from_cfg_str` (config.rs lines 336-338):
out-of-u8-range or unparsable strings are `UnknownString`. -/
def U8.from_cfg_str (s : String) : Except Error Nat :=
  match parseDec s.data with
  | some n => if n < 2 ^ 8 then .ok n else .error (.UnknownString s)
  | none => .error (.UnknownString s)

/-- `<Discrimination as ConfigParamVariant>::to_cfg_string`
(config.rs lines 257-263). -/
def Discrimination.to_cfg_string : Discrimination → String
  | .Production => "production"
  | .Test => "test"

/-- `<Discrimination as ConfigParamVariant>::from_cfg_str`
(config.rs lines 265-271). -/
def Discrimination.from_cfg_str (s : String) : Except Error Discrimination :=
  if s = "production" then .ok .Production
  else if s = "test" then .ok .Test
  else .error (.UnknownString s)

/-- Modelled from the spec: the display name of a consensus algorithm
(`ConsensusVersion` Display, external to this core; the spec specifies only
"algorithm name string"). -/
def ConsensusVersion.to_cfg_string : ConsensusVersion → String
  | .Bft => "bft"
  | .GenesisPraos => "genesis-praos"

/-- `<ConsensusVersion as ConfigParamVariant>::from_cfg_str`
(config.rs lines 293-295 via the generic helper): the name lookup itself is
modelled from the spec (`ConsensusVersion` FromStr, external to this core),
with a parse failure reported as `UnknownString`. -/
def ConsensusVersion.from_cfg_str (s : String) : Except Error ConsensusVersion :=
  if s = "bft" then .ok .Bft
  else if s = "genesis-praos" then .ok .GenesisPraos
  else .error (.UnknownString s)

/-- `<Block0Date as ConfigParamVariant>::to_cfg_string`
(config.rs lines 226-228). -/
def Block0Date.to_cfg_string (d : Block0Date) : String := natToString d.date

/-- `<Block0Date as ConfigParamVariant>::from_cfg_str`
(config.rs lines 230-232). -/
def Block0Date.from_cfg_str (s : String) : Except Error Block0Date :=
  (U64.from_cfg_str s).map Block0Date.mk

/-- The three zero-padded decimal digits of a value below 1000. -/
def pad3 (n : Nat) : List Char :=
  [digitChar (n / 100), digitChar (n / 10 % 10), digitChar (n % 10)]

/-- Modelled from the spec: the decimal fixed-point rendering of a `Milli`
(`Milli` Display, external to this core): the integer part followed by a dot
and the three digits of the thousandths. -/
def Milli.to_cfg_string (m : Milli) : String :=
  ⟨(natToString (m.millis / 1000)).data ++ '.' :: pad3 (m.millis % 1000)⟩

/-- Modelled from the spec: `Milli` FromStr (external to this core), the
inverse of the fixed-point rendering: an integer part, a dot, and exactly
three fraction digits; anything else, or a value out of u64 range, is
`UnknownString` (via the generic helper of config.rs lines 377-379). -/
def Milli.from_cfg_str (s : String) : Except Error Milli :=
  match s.data.dropWhile (fun c => c != '.') with
  | '.' :: frac =>
    if frac.length = 3 then
      match parseDec (s.data.takeWhile (fun c => c != '.')), parseDec frac with
      | some i, some f =>
        if i * 1000 + f < 2 ^ 64 then .ok ⟨i * 1000 + f⟩
        else .error (.UnknownString s)
      | _, _ => .error (.UnknownString s)
    else .error (.UnknownString s)
  | _ => .error (.UnknownString s)

/-- Modelled from the spec: `<LeaderId as ConfigParamVariant>::to_cfg_string`
(config.rs lines 309-311) defers to the cryptography module's bech32 codec,
which the spec treats as an external collaborator specified only at its
interface boundary; it is modelled as an injective rendering of the key
bytes as characters. -/
def LeaderId.to_cfg_string (l : LeaderId) : String := ⟨l.bytes.map Char.ofNat⟩

/-- Modelled from the spec: `<LeaderId as ConfigParamVariant>::from_cfg_str`
(config.rs lines 313-317): decode the rendered key bytes and validate them as
a public key, any failure carrying the input as `UnknownString`. -/
def LeaderId.from_cfg_str (s : String) : Except Error LeaderId :=
  let bs := s.data.map Char.toNat
  if bs.length = PUBLIC_KEY_SIZE ∧ ∀ b ∈ bs, b < 256 then .ok ⟨bs⟩
  else .error (.UnknownString s)

/-- The per-variant value string of `serde_impl`'s `Serialize`
(config.rs lines 191-200). -/
def ConfigParam.to_cfg_string : ConfigParam → String
  | .Block0Date d => d.to_cfg_string
  | .Discrimination d => d.to_cfg_string
  | .ConsensusVersion v => v.to_cfg_string
  | .SlotsPerEpoch n => U64.to_cfg_string n
  | .SlotDuration n => U8.to_cfg_string n
  | .ConsensusLeaderCert l => l.to_cfg_string
  | .ConsensusGenesisPraosParamD m => m.to_cfg_string
  | .ConsensusGenesisPraosParamF m => m.to_cfg_string

/-- `serde_impl`'s `Serialize for ConfigParam` (config.rs lines 188-203): the
text record is the pair of the tag's canonical name and the value string. -/
def ConfigParam.serializeText (v : ConfigParam) : String × String :=
  ((Tag.fromConfigParam v).name, v.to_cfg_string)

/-- `serde_impl`'s `Deserialize for ConfigParam` (config.rs lines 154-186):
resolve the tag name (an unknown name fails with `InvalidTag`), then dispatch
to that kind's `from_cfg_str`. Errors are surfaced to serde via
`Error::custom`; the embedding keeps the structured `Error` value that the
code hands to `custom`. -/
def ConfigParam.deserializeText (tagStr value : String) : Except Error ConfigParam :=
  match Tag.fromName tagStr with
  | none => .error .InvalidTag
  | some tag =>
    match tag with
    | .Block0Date => (Block0Date.from_cfg_str value).map ConfigParam.Block0Date
    | .Discrimination => (Discrimination.from_cfg_str value).map ConfigParam.Discrimination
    | .ConsensusVersion => (ConsensusVersion.from_cfg_str value).map ConfigParam.ConsensusVersion
    | .SlotsPerEpoch => (U64.from_cfg_str value).map ConfigParam.SlotsPerEpoch
    | .SlotDuration => (U8.from_cfg_str value).map ConfigParam.SlotDuration
    | .ConsensusLeaderCert => (LeaderId.from_cfg_str value).map ConfigParam.ConsensusLeaderCert
    | .ConsensusGenesisPraosParamD =>
        (Milli.from_cfg_str value).map ConfigParam.ConsensusGenesisPraosParamD
    | .ConsensusGenesisPraosParamF =>
        (Milli.from_cfg_str value).map ConfigParam.ConsensusGenesisPraosParamF

/-! ## Frame-word arithmetic -/

theorem Tag.toNat_le (t : Tag) : t.toNat ≤ 8 := by
  cases t <;> decide

theorem Tag.fromNat_toNat (t : Tag) : Tag.fromNat t.toNat = some t := by
  cases t <;> rfl

/-- The packed word built by `TagLen::new` equals `64 * tag + len` when the
length is in range: no bits are lost to the u16 casts and the or of the
shifted tag with the 6-bit length is exact. -/
theorem word_eq (c l : Nat) (hc : c ≤ 8) (hl : l < 64) :
    (((c % 65536) <<< 6) % 65536) ||| (l % 65536) = 64 * c + l := by
  have h64 : (2 : Nat) ^ 6 = 64 := by norm_num
  have hc' : c % 65536 = c := Nat.mod_eq_of_lt (by omega)
  have hl' : l % 65536 = l := Nat.mod_eq_of_lt (by omega)
  have hor := Nat.mul_add_lt_is_or (i := 6) (b := l) (by rw [h64]; omega) c
  rw [h64] at hor
  rw [hc', hl', Nat.shiftLeft_eq, h64]
  rw [Nat.mod_eq_of_lt (show c * 64 < 65536 by omega)]
  rw [Nat.mul_comm c 64, ← hor]

theorem TagLen.new_eq (t : Tag) (l : Nat) (hl : l < 64) :
    TagLen.new t l = some ⟨64 * t.toNat + l⟩ := by
  unfold TagLen.new
  rw [if_pos (show l < MAXIMUM_LEN from hl), word_eq _ _ (Tag.toNat_le t) hl]

theorem TagLen.get_len_word (c l : Nat) (hl : l < 64) :
    TagLen.get_len ⟨64 * c + l⟩ = l := by
  unfold TagLen.get_len
  have := Nat.and_pow_two_sub_one_eq_mod (64 * c + l) 6
  norm_num at this
  simp only [this]
  omega

theorem shift_word (c l : Nat) (hl : l < 64) : (64 * c + l) >>> 6 = c := by
  rw [Nat.shiftRight_eq_div_pow]
  norm_num
  omega

theorem TagLen.get_tag_word (t : Tag) (l : Nat) (hl : l < 64) :
    TagLen.get_tag ⟨64 * t.toNat + l⟩ = .ok t := by
  unfold TagLen.get_tag
  rw [shift_word _ _ hl, Tag.fromNat_toNat]

/-! ## Claim theorems: frames and registry -/

/-- C2: for every registered tag and every length `l ≤ 63`, `TagLen::new`
builds a frame word from which `get_tag` recovers the tag and `get_len`
recovers the length. -/
theorem frame_pack_roundtrip (t : Tag) (l : Nat) (hl : l ≤ 63) :
    ∃ tl, TagLen.new t l = some tl ∧ tl.get_tag = .ok t ∧ tl.get_len = l := by
  have hl' : l < 64 := by omega
  exact ⟨⟨64 * t.toNat + l⟩, TagLen.new_eq t l hl',
    TagLen.get_tag_word t l hl', TagLen.get_len_word t.toNat l hl'⟩

theorem frame_pack_roundtrip_witness :
    (5 : Nat) ≤ 63 ∧
    ∃ tl, TagLen.new .Discrimination 5 = some tl ∧
      tl.get_tag = .ok .Discrimination ∧ tl.get_len = 5 :=
  ⟨by decide, frame_pack_roundtrip .Discrimination 5 (by decide)⟩

/-- C4: frame construction fails for every payload length of 64 or more and
succeeds for every length below 64, for any tag. -/
theorem frame_len_ceiling (t : Tag) (l : Nat) :
    (64 ≤ l → TagLen.new t l = none) ∧ (l < 64 → (TagLen.new t l).isSome) := by
  constructor
  · intro h
    unfold TagLen.new
    rw [if_neg (show ¬ l < MAXIMUM_LEN by unfold MAXIMUM_LEN; omega)]
  · intro h
    rw [TagLen.new_eq t l h]
    rfl

theorem frame_len_ceiling_witness :
    TagLen.new .Block0Date 64 = none ∧ (TagLen.new .Block0Date 63).isSome :=
  ⟨(frame_len_ceiling .Block0Date 64).1 (by decide),
   (frame_len_ceiling .Block0Date 63).2 (by decide)⟩

/-- C3: a Discrimination payload `[3]` is rejected with `StructureInvalid`;
every 7-byte Block0Date payload is rejected with `SizeInvalid`; every frame
word whose tag field is 9 is rejected with `InvalidTag`. -/
theorem malformed_inputs_rejected :
    Discrimination.from_payload [3] = .error .StructureInvalid ∧
    (∀ p : List Nat, p.length = 7 → Block0Date.from_payload p = .error .SizeInvalid) ∧
    (∀ w : Nat, w >>> 6 = 9 → TagLen.get_tag ⟨w⟩ = .error .InvalidTag) := by
  refine ⟨by decide, ?_, ?_⟩
  · intro p hp
    unfold Block0Date.from_payload U64.from_payload
    rw [if_neg (by omega)]
    rfl
  · intro w hw
    unfold TagLen.get_tag
    rw [hw]
    rfl

theorem malformed_inputs_rejected_witness :
    Block0Date.from_payload [0, 0, 0, 0, 0, 0, 0] = .error .SizeInvalid ∧
    TagLen.get_tag ⟨576⟩ = .error .InvalidTag :=
  ⟨malformed_inputs_rejected.2.1 [0, 0, 0, 0, 0, 0, 0] (by decide),
   malformed_inputs_rejected.2.2 576 (by decide)⟩

/-- C5: the registry maps the eight kinds injectively to numeric tags (all
below 1024) and to canonical names, and the tag derived from a parameter's
active variant is total with no fallback: each variant maps to exactly its own
tag. -/
theorem tag_registry_stable :
    (∀ t : Tag, t.toNat < 1024) ∧
    (∀ t1 t2 : Tag, t1.toNat = t2.toNat → t1 = t2) ∧
    (∀ t1 t2 : Tag, t1.name = t2.name → t1 = t2) ∧
    (∀ d, Tag.fromConfigParam (.Block0Date d) = .Block0Date) ∧
    (∀ d, Tag.fromConfigParam (.Discrimination d) = .Discrimination) ∧
    (∀ c, Tag.fromConfigParam (.ConsensusVersion c) = .ConsensusVersion) ∧
    (∀ n, Tag.fromConfigParam (.SlotsPerEpoch n) = .SlotsPerEpoch) ∧
    (∀ n, Tag.fromConfigParam (.SlotDuration n) = .SlotDuration) ∧
    (∀ l, Tag.fromConfigParam (.ConsensusLeaderCert l) = .ConsensusLeaderCert) ∧
    (∀ m, Tag.fromConfigParam (.ConsensusGenesisPraosParamD m) = .ConsensusGenesisPraosParamD) ∧
    (∀ m, Tag.fromConfigParam (.ConsensusGenesisPraosParamF m) = .ConsensusGenesisPraosParamF) := by
  refine ⟨?_, ?_, ?_, fun _ => rfl, fun _ => rfl, fun _ => rfl, fun _ => rfl,
    fun _ => rfl, fun _ => rfl, fun _ => rfl, fun _ => rfl⟩
  · intro t; cases t <;> decide
  · intro t1 t2 h
    cases t1 <;> cases t2 <;> simp_all [Tag.toNat]
  · intro t1 t2 h
    cases t1 <;> cases t2 <;> simp_all [Tag.name]

theorem tag_registry_stable_witness :
    Tag.Discrimination = Tag.Discrimination ∧ Tag.SlotDuration = Tag.SlotDuration :=
  ⟨tag_registry_stable.2.1 .Discrimination .Discrimination (by decide),
   tag_registry_stable.2.2.1 .SlotDuration .SlotDuration (by decide)⟩

/-- C10: every frame word whose tag field is zero (including the all-zero
word) fails tag resolution with `InvalidTag`, because numeric tag identities
start at 1; consequently an all-zero input buffer of any length never decodes
to a `ConfigParam`. -/
theorem zero_tag_never_decodes :
    (∀ w : Nat, w >>> 6 = 0 → TagLen.get_tag ⟨w⟩ = .error .InvalidTag) ∧
    (∀ (n : Nat) (v : ConfigParam) (rest : List Nat),
      ConfigParam.read (List.replicate n 0) ≠ .ok (v, rest)) := by
  constructor
  · intro w hw
    unfold TagLen.get_tag
    rw [hw]
    rfl
  · intro n v rest
    match n with
    | 0 => simp [ConfigParam.read, get_u16]
    | 1 => simp [ConfigParam.read, get_u16, List.replicate]
    | (k + 2) =>
      have hrep : List.replicate (k + 2) 0 = 0 :: 0 :: List.replicate k 0 := rfl
      rw [hrep]
      simp [ConfigParam.read, get_u16, get_slice,
        show TagLen.get_len ⟨0⟩ = 0 from by decide,
        show TagLen.get_tag ⟨0⟩ = .error .InvalidTag from by decide]

theorem zero_tag_never_decodes_witness :
    TagLen.get_tag ⟨0⟩ = .error .InvalidTag ∧
    ConfigParam.read (List.replicate 4 0) ≠ .ok (.Discrimination .Test, []) :=
  ⟨zero_tag_never_decodes.1 0 (by decide),
   zero_tag_never_decodes.2 4 (.Discrimination .Test) []⟩

/-! ## Binary round-trip -/

theorem fromBe_toBe8 (x : Nat) (h : x < 2 ^ 64) : fromBeBytes (toBeBytes8 x) = x := by
  unfold fromBeBytes toBeBytes8
  simp only [List.foldl, Nat.shiftRight_eq_div_pow]
  norm_num
  omega

theorem beBytes2_recompose (w : Nat) (h : w < 65536) :
    (w >>> 8 % 256) * 256 + w % 256 = w := by
  rw [Nat.shiftRight_eq_div_pow]
  norm_num
  omega

theorem get_u16_frame (w : Nat) (p : List Nat) (hw : w < 65536) :
    get_u16 (toBeBytes2 w ++ p) = .ok (w, p) := by
  show Except.ok ((w >>> 8 % 256) * 256 + w % 256, p) = .ok (w, p)
  rw [beBytes2_recompose w hw]

/-- Reading back a well-formed frame: the 2-byte frame word recomposes, the
length field selects exactly the payload, and the tag field resolves, so the
decode reduces to the per-kind dispatch on the payload. -/
theorem ConfigParam.read_frame (t : Tag) (p : List Nat) (hl : p.length < 64) :
    ConfigParam.read (toBeBytes2 (64 * t.toNat + p.length) ++ p) =
      match ConfigParam.readInner t p with
      | .ok v => .ok (v, ([] : List Nat))
      | .error e => .error e.intoReadError := by
  have hw : 64 * t.toNat + p.length < 65536 := by
    have := Tag.toNat_le t
    omega
  simp only [ConfigParam.read, get_u16_frame _ _ hw,
    TagLen.get_len_word t.toNat p.length hl, TagLen.get_tag_word t p.length hl,
    get_slice, le_refl, if_pos, List.take_length, List.drop_length]

theorem ConfigParam.serialize_eq (v : ConfigParam) (hlen : v.to_payload.length < 64) :
    v.serialize =
      .ok (toBeBytes2 (64 * (Tag.fromConfigParam v).toNat + v.to_payload.length)
        ++ v.to_payload) := by
  show (match TagLen.new (Tag.fromConfigParam v) v.to_payload.length with
    | none => Except.error "initial ent payload too big"
    | some taglen => Except.ok (toBeBytes2 taglen.word ++ v.to_payload)) = _
  rw [TagLen.new_eq _ _ hlen]

theorem roundtrip_of_readInner (v : ConfigParam)
    (hlen : v.to_payload.length < 64)
    (hinner : ConfigParam.readInner (Tag.fromConfigParam v) v.to_payload = .ok v) :
    ∃ bytes, v.serialize = .ok bytes ∧ ConfigParam.read bytes = .ok (v, []) := by
  refine ⟨_, ConfigParam.serialize_eq v hlen, ?_⟩
  rw [ConfigParam.read_frame _ _ hlen, hinner]

theorem U64.from_to (x : Nat) (h : x < 2 ^ 64) :
    U64.from_payload (U64.to_payload x) = .ok x := by
  unfold U64.from_payload U64.to_payload
  rw [if_pos (show (toBeBytes8 x).length = 8 from rfl), fromBe_toBe8 x h]

/-- C1: for every constructible `ConfigParam`, decoding the serialized bytes
(16-bit frame word followed by the payload) yields exactly the value back and
consumes the whole buffer. Serialization is a pure function of the value by
construction: `ConfigParam.serialize` is a function of `v` alone. -/
theorem binary_roundtrip (v : ConfigParam) (h : v.WF) :
    ∃ bytes, v.serialize = .ok bytes ∧ ConfigParam.read bytes = .ok (v, []) := by
  cases v with
  | Block0Date d =>
    refine roundtrip_of_readInner _ (show (8 : Nat) < 64 by decide) ?_
    simp only [ConfigParam.readInner, ConfigParam.to_payload, Tag.fromConfigParam,
      Block0Date.from_payload, Block0Date.to_payload, U64.from_to d.date h]
    rfl
  | Discrimination d =>
    cases d <;> exact roundtrip_of_readInner _ (by decide) (by decide)
  | ConsensusVersion c =>
    cases c <;> exact roundtrip_of_readInner _ (by decide) (by decide)
  | SlotsPerEpoch n =>
    refine roundtrip_of_readInner _ (show (8 : Nat) < 64 by decide) ?_
    simp only [ConfigParam.readInner, ConfigParam.to_payload, Tag.fromConfigParam,
      U64.from_to n h]
    rfl
  | SlotDuration n =>
    exact roundtrip_of_readInner _ (show (1 : Nat) < 64 by decide) rfl
  | ConsensusLeaderCert l =>
    refine roundtrip_of_readInner _ ?_ ?_
    · show l.bytes.length < 64
      rw [h.1]
      decide
    · simp only [ConfigParam.readInner, ConfigParam.to_payload, Tag.fromConfigParam,
        LeaderId.from_payload, LeaderId.to_payload, if_pos h.1]
      rfl
  | ConsensusGenesisPraosParamD m =>
    refine roundtrip_of_readInner _ (show (8 : Nat) < 64 by decide) ?_
    simp only [ConfigParam.readInner, ConfigParam.to_payload, Tag.fromConfigParam,
      Milli.from_payload, Milli.to_payload, Milli.into_millis, U64.from_to m.millis h]
    rfl
  | ConsensusGenesisPraosParamF m =>
    refine roundtrip_of_readInner _ (show (8 : Nat) < 64 by decide) ?_
    simp only [ConfigParam.readInner, ConfigParam.to_payload, Tag.fromConfigParam,
      Milli.from_payload, Milli.to_payload, Milli.into_millis, U64.from_to m.millis h]
    rfl

theorem binary_roundtrip_witness :
    (ConfigParam.SlotsPerEpoch 21600).WF ∧
    ∃ bytes, (ConfigParam.SlotsPerEpoch 21600).serialize = .ok bytes ∧
      ConfigParam.read bytes = .ok (.SlotsPerEpoch 21600, []) :=
  ⟨by decide, binary_roundtrip (.SlotsPerEpoch 21600) (by decide)⟩

/-- C9: encoding `Discrimination::Test` yields exactly the frame word with tag
2 in bits 15..6 and length 1 in bits 5..0 (big-endian bytes `0x00 0x81`)
followed by payload byte `0x02`, and decoding those three bytes reproduces the
value. -/
theorem discrimination_test_example :
    ConfigParam.serialize (.Discrimination .Test) = .ok [0x00, 0x81, 0x02] ∧
    ConfigParam.read [0x00, 0x81, 0x02] = .ok (.Discrimination .Test, []) := by
  decide

/-! ## Decimal text round-trip -/

theorem decDigitsFuel_foldr (fuel : Nat) : ∀ n, n ≤ fuel →
    (decDigitsFuel fuel n).foldr (fun d a => a * 10 + d) 0 = n := by
  induction fuel with
  | zero =>
    intro n h
    interval_cases n
    rfl
  | succ k ih =>
    intro n h
    unfold decDigitsFuel
    by_cases h0 : n = 0
    · rw [if_pos h0, h0]
      rfl
    · rw [if_neg h0]
      simp only [List.foldr]
      rw [ih (n / 10) (by omega)]
      omega

theorem decDigitsFuel_lt (fuel : Nat) : ∀ n, ∀ d ∈ decDigitsFuel fuel n, d < 10 := by
  induction fuel with
  | zero =>
    intro n d hd
    simp [decDigitsFuel] at hd
  | succ k ih =>
    intro n d hd
    unfold decDigitsFuel at hd
    by_cases h0 : n = 0
    · rw [if_pos h0] at hd
      simp at hd
    · rw [if_neg h0] at hd
      rcases List.mem_cons.mp hd with h | h
      · omega
      · exact ih _ d h

theorem char_toNat_ofNat (n : Nat) (h : n < 55296) : (Char.ofNat n).toNat = n := by
  have hv : n.isValidChar := Or.inl h
  rw [Char.ofNat, dif_pos hv]
  simp [Char.ofNatAux, Char.toNat, UInt32.toNat, UInt32.ofNat', BitVec.toNat_ofNatLt]

theorem charDigit_digitChar (d : Nat) (h : d < 10) : charDigit (digitChar d) = some d := by
  unfold charDigit digitChar
  rw [char_toNat_ofNat (48 + d) (by omega)]
  rw [if_pos (by omega)]
  simp

theorem foldr_parse_map (ds : List Nat) (hd : ∀ d ∈ ds, d < 10) :
    (ds.map digitChar).foldr (fun c acc => parseStep acc c) (some 0) =
      some (ds.foldr (fun d a => a * 10 + d) 0) := by
  induction ds with
  | nil => rfl
  | cons d t ih =>
    simp only [List.map, List.foldr]
    rw [ih (fun x hx => hd x (List.mem_cons_of_mem d hx))]
    unfold parseStep
    rw [charDigit_digitChar d (hd d (List.mem_cons_self ..))]
    rfl

/-- Parsing a decimal rendering recovers the number: the decimal text codec
round-trips on every natural number. -/
theorem parseDec_natToString (n : Nat) : parseDec (natToString n).data = some n := by
  by_cases h0 : n = 0
  · rw [h0]
    decide
  · unfold natToString
    rw [if_neg h0]
    have hne : decDigitsFuel n n ≠ [] := by
      match n, h0 with
      | (m + 1), _ =>
        unfold decDigitsFuel
        simp
    unfold parseDec
    rw [if_neg (by simpa using fun h => hne (by simpa using h))]
    show ((decDigitsFuel n n).reverse.map digitChar).foldl parseStep (some 0) = some n
    rw [List.map_reverse, List.foldl_reverse]
    rw [foldr_parse_map _ (decDigitsFuel_lt n n)]
    rw [decDigitsFuel_foldr n n (Nat.le_refl n)]

theorem u64_text_inverse (x : Nat) (h : x < 2 ^ 64) :
    U64.from_cfg_str (U64.to_cfg_string x) = .ok x := by
  unfold U64.from_cfg_str U64.to_cfg_string
  simp only [parseDec_natToString x]
  rw [if_pos h]

theorem u8_text_inverse (x : Nat) (h : x < 2 ^ 8) :
    U8.from_cfg_str (U8.to_cfg_string x) = .ok x := by
  unfold U8.from_cfg_str U8.to_cfg_string
  simp only [parseDec_natToString x]
  rw [if_pos h]

theorem takeWhile_append_cons {α : Type} (p : α → Bool) (l1 : List α) (c : α) (l2 : List α)
    (h1 : ∀ a ∈ l1, p a = true) (h2 : p c = false) :
    (l1 ++ c :: l2).takeWhile p = l1 := by
  induction l1 with
  | nil => simp [List.takeWhile, h2]
  | cons a t ih =>
    have ha := h1 a (List.mem_cons_self ..)
    simp only [List.cons_append, List.takeWhile, ha]
    show a :: List.takeWhile p (t ++ c :: l2) = a :: t
    rw [ih (fun x hx => h1 x (List.mem_cons_of_mem a hx))]

theorem dropWhile_append_cons {α : Type} (p : α → Bool) (l1 : List α) (c : α) (l2 : List α)
    (h1 : ∀ a ∈ l1, p a = true) (h2 : p c = false) :
    (l1 ++ c :: l2).dropWhile p = c :: l2 := by
  induction l1 with
  | nil => simp [List.dropWhile, h2]
  | cons a t ih =>
    have ha := h1 a (List.mem_cons_self ..)
    simp only [List.cons_append, List.dropWhile, ha]
    show List.dropWhile p (t ++ c :: l2) = c :: l2
    exact ih (fun x hx => h1 x (List.mem_cons_of_mem a hx))

theorem digitChar_ne_dot (d : Nat) (h : d < 10) : (digitChar d != '.') = true := by
  interval_cases d <;> decide

theorem natToString_digits (n : Nat) : ∀ c ∈ (natToString n).data, (c != '.') = true := by
  intro c hc
  unfold natToString at hc
  by_cases h0 : n = 0
  · rw [if_pos h0] at hc
    simp at hc
    rw [hc]
    decide
  · rw [if_neg h0] at hc
    have hex : ∃ d, d ∈ decDigitsFuel n n ∧ digitChar d = c := by simpa using hc
    obtain ⟨d, hd, rfl⟩ := hex
    exact digitChar_ne_dot d (decDigitsFuel_lt n n d hd)

theorem parseDec_pad3 (r : Nat) (h : r < 1000) : parseDec (pad3 r) = some r := by
  unfold parseDec pad3
  rw [if_neg (by simp)]
  simp only [List.foldl]
  unfold parseStep
  rw [charDigit_digitChar (r / 100) (by omega)]
  rw [charDigit_digitChar (r / 10 % 10) (by omega)]
  rw [charDigit_digitChar (r % 10) (by omega)]
  simp only [Option.bind, Option.map]
  exact congrArg some (by omega)

theorem milli_text_inverse (m : Milli) (h : m.millis < 2 ^ 64) :
    Milli.from_cfg_str m.to_cfg_string = .ok m := by
  unfold Milli.from_cfg_str Milli.to_cfg_string
  have hdata : ∀ l : List Char, (String.mk l).data = l := fun _ => rfl
  have hdw := dropWhile_append_cons (fun c => c != '.') (natToString (m.millis / 1000)).data
    '.' (pad3 (m.millis % 1000)) (natToString_digits _) (by decide)
  have htw := takeWhile_append_cons (fun c => c != '.') (natToString (m.millis / 1000)).data
    '.' (pad3 (m.millis % 1000)) (natToString_digits _) (by decide)
  simp only [hdata, hdw, htw]
  rw [if_pos (show (pad3 (m.millis % 1000)).length = 3 from rfl)]
  simp only [parseDec_natToString (m.millis / 1000),
    parseDec_pad3 (m.millis % 1000) (by omega)]
  rw [if_pos (by omega)]
  have hsplit : m.millis / 1000 * 1000 + m.millis % 1000 = m.millis := by omega
  rw [hsplit]

theorem leader_text_inverse (l : LeaderId) (h1 : l.bytes.length = PUBLIC_KEY_SIZE)
    (h2 : ∀ b ∈ l.bytes, b < 256) :
    LeaderId.from_cfg_str l.to_cfg_string = .ok l := by
  unfold LeaderId.from_cfg_str LeaderId.to_cfg_string
  have hdata : ∀ ll : List Char, (String.mk ll).data = ll := fun _ => rfl
  have hmap : ∀ bs : List Nat, (∀ b ∈ bs, b < 256) →
      (bs.map Char.ofNat).map Char.toNat = bs := by
    intro bs hbs
    induction bs with
    | nil => rfl
    | cons b t ih =>
      simp only [List.map]
      rw [char_toNat_ofNat b (by have := hbs b (List.mem_cons_self ..); omega)]
      rw [ih (fun x hx => hbs x (List.mem_cons_of_mem b hx))]
  simp only [hdata, hmap l.bytes h2]
  rw [if_pos ⟨h1, h2⟩]

theorem Tag.fromName_name (t : Tag) : Tag.fromName t.name = some t := by
  cases t <;> decide

/-! ## Totality and bounded consumption of decode -/

/-- Unfolding of the decoder on a buffer that holds at least the 2 frame
bytes. -/
theorem ConfigParam.read_cons (b0 b1 : Nat) (rest : List Nat) :
    ConfigParam.read (b0 :: b1 :: rest) =
      match get_slice (TagLen.get_len ⟨b0 * 256 + b1⟩) rest with
      | .error e => .error e
      | .ok (bytes, buf2) =>
        match TagLen.get_tag ⟨b0 * 256 + b1⟩ with
        | .error e => .error e.intoReadError
        | .ok tag =>
          match ConfigParam.readInner tag bytes with
          | .ok v => .ok (v, buf2)
          | .error e => .error e.intoReadError := rfl

theorem TagLen.get_len_le (t : TagLen) : t.get_len ≤ 63 := by
  unfold TagLen.get_len
  have := Nat.and_pow_two_sub_one_eq_mod t.word 6
  norm_num at this
  rw [this]
  omega

/-- C8: decode is total on untrusted input. On every finite byte buffer the
decoder returns either a decoded value or a structured error (it is a total
function of the buffer; every payload access in the embedding is by a
length-guarded slice, mirroring the length checks guarding each index access in
the source), and on success it consumes the 2 frame bytes plus at most 63
payload bytes, leaving a suffix of the input. -/
theorem decode_total_bounded (buf : List Nat) :
    (∃ e, ConfigParam.read buf = .error e) ∨
    (∃ v rest k, ConfigParam.read buf = .ok (v, rest) ∧
      rest = buf.drop k ∧ 2 ≤ k ∧ k ≤ 65) := by
  match buf with
  | [] => exact Or.inl ⟨.NotEnoughBytes, rfl⟩
  | [b0] => exact Or.inl ⟨.NotEnoughBytes, rfl⟩
  | b0 :: b1 :: rest =>
    have hn63 : TagLen.get_len ⟨b0 * 256 + b1⟩ ≤ 63 := TagLen.get_len_le _
    cases hsl : get_slice (TagLen.get_len ⟨b0 * 256 + b1⟩) rest with
    | error e =>
      refine Or.inl ⟨e, ?_⟩
      rw [ConfigParam.read_cons]
      simp only [hsl]
    | ok pr =>
      obtain ⟨bytes, buf2⟩ := pr
      have hdrop : buf2 = rest.drop (TagLen.get_len ⟨b0 * 256 + b1⟩) := by
        unfold get_slice at hsl
        by_cases hle : TagLen.get_len ⟨b0 * 256 + b1⟩ ≤ rest.length
        · rw [if_pos hle] at hsl
          exact ((Prod.mk.injEq .. ▸ Except.ok.inj hsl)).2.symm
        · rw [if_neg hle] at hsl
          exact absurd hsl (by simp)
      cases htag : TagLen.get_tag ⟨b0 * 256 + b1⟩ with
      | error e =>
        refine Or.inl ⟨e.intoReadError, ?_⟩
        rw [ConfigParam.read_cons]
        simp only [hsl, htag]
      | ok tag =>
        cases hinner : ConfigParam.readInner tag bytes with
        | error e =>
          refine Or.inl ⟨e.intoReadError, ?_⟩
          rw [ConfigParam.read_cons]
          simp only [hsl, htag, hinner]
        | ok v =>
          refine Or.inr ⟨v, buf2, TagLen.get_len ⟨b0 * 256 + b1⟩ + 2, ?_, ?_, by omega, by omega⟩
          · rw [ConfigParam.read_cons]
            simp only [hsl, htag, hinner]
          · rw [hdrop]
            rfl

/-! ## Text-format claims -/

/-- C6 (counterexample): resolving the unregistered key name `"bogus"` does
not fail with `UnknownString` carrying the offending string; the code fails
with `InvalidTag`, which carries no string (config.rs line 157). -/
theorem unknown_name_not_unknown_string :
    ConfigParam.deserializeText "bogus" "test" ≠ .error (.UnknownString "bogus") ∧
    ConfigParam.deserializeText "bogus" "test" = .error .InvalidTag := by
  decide

/-- C6 (amended): resolving a key name string that matches no registered
canonical tag name fails with the `InvalidTag` error condition (which carries
no string), for every unregistered name string and every value string. -/
theorem unknown_name_invalid_tag (s v : String) (h : Tag.fromName s = none) :
    ConfigParam.deserializeText s v = .error .InvalidTag := by
  unfold ConfigParam.deserializeText
  rw [h]

theorem unknown_name_invalid_tag_witness :
    Tag.fromName "bogus" = none ∧
    ConfigParam.deserializeText "bogus" "test" = .error .InvalidTag :=
  ⟨by decide, unknown_name_invalid_tag "bogus" "test" (by decide)⟩

/-- C7: for every constructible `ConfigParam`, encoding to the text pair
(canonical tag name, value string) and decoding that pair (name resolution
followed by the kind's `from_cfg_str`) yields exactly the value back. -/
theorem text_roundtrip (v : ConfigParam) (h : v.WF) :
    ConfigParam.deserializeText v.serializeText.1 v.serializeText.2 = .ok v := by
  cases v with
  | Block0Date d =>
    have hstep : ConfigParam.deserializeText "block0-date" (Block0Date.to_cfg_string d) =
        (Block0Date.from_cfg_str (Block0Date.to_cfg_string d)).map ConfigParam.Block0Date := rfl
    show ConfigParam.deserializeText "block0-date" (Block0Date.to_cfg_string d) = _
    rw [hstep]
    unfold Block0Date.from_cfg_str Block0Date.to_cfg_string
    rw [show natToString d.date = U64.to_cfg_string d.date from rfl, u64_text_inverse d.date h]
    rfl
  | Discrimination d => cases d <;> decide
  | ConsensusVersion c => cases c <;> decide
  | SlotsPerEpoch n =>
    have hstep : ConfigParam.deserializeText "slots-per-epoch" (U64.to_cfg_string n) =
        (U64.from_cfg_str (U64.to_cfg_string n)).map ConfigParam.SlotsPerEpoch := rfl
    show ConfigParam.deserializeText "slots-per-epoch" (U64.to_cfg_string n) = _
    rw [hstep, u64_text_inverse n h]
    rfl
  | SlotDuration n =>
    have hstep : ConfigParam.deserializeText "slot-duration" (U8.to_cfg_string n) =
        (U8.from_cfg_str (U8.to_cfg_string n)).map ConfigParam.SlotDuration := rfl
    show ConfigParam.deserializeText "slot-duration" (U8.to_cfg_string n) = _
    rw [hstep, u8_text_inverse n h]
    rfl
  | ConsensusLeaderCert l =>
    have hstep : ConfigParam.deserializeText "block0-consensus-leader" l.to_cfg_string =
        (LeaderId.from_cfg_str l.to_cfg_string).map ConfigParam.ConsensusLeaderCert := rfl
    show ConfigParam.deserializeText "block0-consensus-leader" l.to_cfg_string = _
    rw [hstep, leader_text_inverse l h.1 h.2]
    rfl
  | ConsensusGenesisPraosParamD m =>
    have hstep : ConfigParam.deserializeText "genesis-praos-param-d" m.to_cfg_string =
        (Milli.from_cfg_str m.to_cfg_string).map ConfigParam.ConsensusGenesisPraosParamD := rfl
    show ConfigParam.deserializeText "genesis-praos-param-d" m.to_cfg_string = _
    rw [hstep, milli_text_inverse m h]
    rfl
  | ConsensusGenesisPraosParamF m =>
    have hstep : ConfigParam.deserializeText "genesis-praos-param-f" m.to_cfg_string =
        (Milli.from_cfg_str m.to_cfg_string).map ConfigParam.ConsensusGenesisPraosParamF := rfl
    show ConfigParam.deserializeText "genesis-praos-param-f" m.to_cfg_string = _
    rw [hstep, milli_text_inverse m h]
    rfl

theorem text_roundtrip_witness :
    (ConfigParam.SlotDuration 20).WF ∧
    ConfigParam.deserializeText (ConfigParam.SlotDuration 20).serializeText.1
      (ConfigParam.SlotDuration 20).serializeText.2 = .ok (.SlotDuration 20) :=
  ⟨by decide, text_roundtrip (.SlotDuration 20) (by decide)⟩

end CardanoCfg
